import Mathlib

/-!
Shallow embedding of the Splash → Webflow event sync (src/index.js) and proofs of
the specification claims about it.

Modelling conventions:
* JavaScript strings are Lean `String`; optional / possibly-missing JS values are
  `Option`; the JS truthiness test on a string-valued field (`if (x)`) is
  "present and non-empty".
* `event.id` is a Splash numeric identifier, modelled as `Nat`; the source applies
  `String(event.id)` both when storing it ('splash-id' field) and when testing
  dedup membership, modelled as `toString`.
* The JS `Date` constructor plus `toISOString`/`toLocaleTimeString` (an external
  runtime facility) is passed in as an abstract parameter
  `pd : String → Option (String × String)` returning (ISO date, locale time) on a
  successful parse and `none` when `isNaN(dateObj.getTime())`; no claim depends on
  its values, only on whether parsing succeeded.
* The HTTP calls are replaced by their data: the collection schema is a
  `Finset String` of field slugs, the Webflow item listing is a server function
  `serve : Nat → List WebflowItem` (offset ↦ page), and `createWebflowEvent` is an
  oracle `createOk : SplashEvent → Option String` (`none` = success, `some msg` =
  the thrown error message).
* The unbounded `while (true)` pagination loop is embedded with explicit fuel
  (`fetchPagesLoop`); termination for finite record sets is proved, and the
  canonical `fetchExistingSplashIds` instantiates the fuel large enough.
-/

/-- A value stored in a Webflow fieldData map: either a plain string or the
structured image reference written for the thumbnail field (src/index.js:283). -/
inductive FieldValue where
  | str (s : String)
  | image (url : String)
deriving DecidableEq, Repr

/-- A Splash event as consumed by the sync (the fields src/index.js reads). -/
structure SplashEvent where
  id : Nat
  title : Option String := none
  published : Option Bool := none
  fq_url : Option String := none
  event_start : Option String := none
  city : Option String := none
  state : Option String := none
  event_type_name : Option String := none
  header_image : Option String := none
deriving DecidableEq, Repr

/-- A Webflow collection item as seen by the dedup scan: only its stored
'splash-id' field value is read (src/index.js:190). -/
structure WebflowItem where
  splashId : Option String := none
deriving DecidableEq, Repr

/-- JS `a || d` on an optional string: missing or empty falls back to the default
(src/index.js:234, 287, 288, 305). -/
def jsOr (o : Option String) (d : String) : String :=
  match o with
  | none => d
  | some s => if s = "" then d else s

/-- JS truthiness of an optional string value. -/
def truthy (o : Option String) : Bool :=
  match o with
  | none => false
  | some s => decide (s ≠ "")

/-- Characters the slug regex keeps: the class [a-z0-9] (src/index.js:238). -/
def isSlugChar (c : Char) : Bool :=
  (97 ≤ c.toNat && c.toNat ≤ 122) || (48 ≤ c.toNat && c.toNat ≤ 57)

/-- One left-to-right pass implementing `.replace(/[^a-z0-9]+/g, '-')`: the flag
records whether we are inside a run of excluded characters whose single
replacement hyphen was already emitted. -/
def collapseAux : List Char → Bool → List Char
  | [], _ => []
  | c :: rest, inRun =>
    if isSlugChar c then c :: collapseAux rest false
    else if inRun then collapseAux rest inRun
    else '-' :: collapseAux rest true

/-- Replace every maximal run of characters outside [a-z0-9] by one hyphen. -/
def collapse (l : List Char) : List Char :=
  collapseAux l false

/-- JS `.replace(/^-|-$/g, '')` (src/index.js:239): removes the single possible
leading and trailing hyphen (after `collapse` no two hyphens are adjacent). -/
def stripEdgeHyphens (l : List Char) : List Char :=
  let l1 := if l.head? = some '-' then l.tail else l
  if l1.getLast? = some '-' then l1.dropLast else l1

/-- The slug computation of src/index.js:236-240: lower-case, collapse runs of
excluded characters to single hyphens, strip edge hyphens, truncate to 100. -/
def slugify (title : String) : String :=
  String.mk (List.take 100 (stripEdgeHyphens (collapse (title.data.map Char.toLower))))

/-- JS `imageUrl.replace('http://', 'https://')` under the guard
`imageUrl.startsWith('http://')` (src/index.js:279-281). -/
def upgradeHttp (u : String) : String :=
  if u.startsWith "http://" then "https://" ++ u.drop 7 else u

/-- Reading a key from a JS object literal built by successive distinct-key
assignments, modelled as first-match lookup in the assignment list. -/
def lookupJs (fd : List (String × FieldValue)) (k : String) : Option FieldValue :=
  (fd.find? (fun p => p.1 == k)).map Prod.snd

/-- A fieldData entry guarded by schema membership and an extra truthiness
condition, as in `if (fieldSlugs.has(key) && cond) fieldData[key] = v`. -/
def condField (fs : Finset String) (key : String) (cond : Bool) (v : FieldValue) :
    List (String × FieldValue) :=
  if key ∈ fs ∧ cond then [(key, v)] else []

/-- The alias-probing for/break loops of src/index.js:290-311: when the source
value is truthy, the first alias present in the schema receives it. -/
def aliasField (fs : Finset String) (aliases : List String) (v : String) :
    List (String × FieldValue) :=
  if v = "" then []
  else
    match aliases.find? (fun a => decide (a ∈ fs)) with
    | some k => [(k, FieldValue.str v)]
    | none => []

/-- The field mapping `mapSplashToWebflow(splashEvent, fieldSlugs)` of
src/index.js:233-314, with the JS Date facility abstracted as `pd`. -/
def mapSplashToWebflow (e : SplashEvent) (fs : Finset String)
    (pd : String → Option (String × String)) : List (String × FieldValue) :=
  let title := jsOr e.title "Untitled Event"
  let slug := slugify title
  let dt : Option (String × String) :=
    match e.event_start with
    | none => none
    | some s => if s = "" then none else pd s
  let eventDate : Option String := dt.map Prod.fst
  let eventTime : String := (dt.map Prod.snd).getD ""
  let imageUrl : Option String := e.header_image.map upgradeHttp
  let city := jsOr e.city ""
  let state := jsOr e.state ""
  let eventType := jsOr e.event_type_name ""
  [("name", FieldValue.str title), ("slug", FieldValue.str slug)]
  ++ condField fs "splash-id" true (FieldValue.str (toString e.id))
  ++ condField fs "splash-url" (truthy e.fq_url) (FieldValue.str (jsOr e.fq_url ""))
  ++ condField fs "date" (truthy eventDate) (FieldValue.str (eventDate.getD ""))
  ++ condField fs "time" (decide (eventTime ≠ "")) (FieldValue.str eventTime)
  ++ condField fs "thumbnail" (truthy imageUrl) (FieldValue.image (imageUrl.getD ""))
  ++ aliasField fs ["location-city", "location---city", "locationcity"] city
  ++ aliasField fs ["location-state", "location---state", "location---state-2", "locationstate"] state
  ++ aliasField fs ["event-type", "event-type-2", "eventtype", "type"] eventType

/-- The 'splash-id' value a created item ends up storing: the created record's
fieldData is exactly the mapped object (src/index.js:216), so the dedup scan of a
later run reads this value back. -/
def splashIdField (fd : List (String × FieldValue)) : Option String :=
  match lookupJs fd "splash-id" with
  | some (FieldValue.str s) => some s
  | _ => none

/-- The body of the dedup scan's per-item loop (src/index.js:189-194): read the
stored 'splash-id' and add it to the set when truthy (present and non-empty). -/
def addItemId (acc : Finset String) (it : WebflowItem) : Finset String :=
  match it.splashId with
  | some s => if s = "" then acc else insert s acc
  | none => acc

/-- Folding the per-item loop over one returned page of items. -/
def addPageIds (acc : Finset String) (items : List WebflowItem) : Finset String :=
  items.foldl addItemId acc

/-- The page size constant of src/index.js:168. -/
def pageLimit : Nat := 100

/-- The `while (true)` pagination loop of `fetchExistingSplashIds`
(src/index.js:170-198), with explicit fuel standing in for the unbounded loop;
besides the id set it counts the page requests issued. -/
def fetchPagesLoop (serve : Nat → List WebflowItem) :
    Nat → Nat → Finset String → Nat → Option (Finset String × Nat)
  | 0, _, _, _ => none
  | fuel + 1, offset, acc, reqs =>
    let items := serve offset
    let acc2 := addPageIds acc items
    if items.length < pageLimit then some (acc2, reqs + 1)
    else fetchPagesLoop serve fuel (offset + pageLimit) acc2 (reqs + 1)

/-- A Webflow server holding the finite item list `db` and answering
offset/limit item listing requests. -/
def pagedServe (db : List WebflowItem) (offset : Nat) : List WebflowItem :=
  (db.drop offset).take pageLimit

/-- `fetchExistingSplashIds()` of src/index.js:165-201 run against a destination
holding `db`: fuel `db.length + 1` is proved sufficient below. -/
def fetchExistingSplashIds (db : List WebflowItem) : Option (Finset String × Nat) :=
  fetchPagesLoop (pagedServe db) (db.length + 1) 0 ∅ 0

/-- The dedup index the sync run works with (the `existingIds` set of
src/index.js:349). -/
def existingIdsOf (db : List WebflowItem) : Finset String :=
  ((fetchExistingSplashIds db).getD (∅, 0)).1

/-- The published filter of src/index.js:345. -/
def publishedOf (events : List SplashEvent) : List SplashEvent :=
  events.filter (fun e => e.published == some true)

/-- The new-event diff of src/index.js:353: published events whose stringified
id is not in the dedup index. -/
def newEventsOf (events : List SplashEvent) (db : List WebflowItem) : List SplashEvent :=
  (publishedOf events).filter (fun e => !(decide (toString e.id ∈ existingIdsOf db)))

/-- One observable step of the write loop: a create call for an event, or the
fixed rate-limiting sleep of src/index.js:375 (milliseconds recorded). -/
inductive SyncAction where
  | attempt (e : SplashEvent)
  | delay (ms : Nat)
deriving DecidableEq, Repr

/-- Everything the write loop of src/index.js:362-380 accumulates, plus the
items the successful create calls added to the destination and the ordered
action trace. -/
structure WriteOutcome where
  synced : Nat
  syncedEvents : List SplashEvent
  errors : List (Nat × String)
  createdItems : List WebflowItem
  trace : List SyncAction
deriving Repr

/-- The write loop of src/index.js:366-380: per event, map the fields and call
`createWebflowEvent`; on success count it, remember it for notification, and
sleep 1100 ms; on failure record (eventId, message) and continue. The created
item stores the mapped fieldData, so its 'splash-id' is `splashIdField` of it. -/
def writeLoop (fs : Finset String) (pd : String → Option (String × String))
    (createOk : SplashEvent → Option String) : List SplashEvent → WriteOutcome
  | [] => ⟨0, [], [], [], []⟩
  | e :: rest =>
    let fieldData := mapSplashToWebflow e fs pd
    let r := writeLoop fs pd createOk rest
    match createOk e with
    | none =>
      ⟨r.synced + 1, e :: r.syncedEvents, r.errors,
        ⟨splashIdField fieldData⟩ :: r.createdItems,
        SyncAction.attempt e :: SyncAction.delay 1100 :: r.trace⟩
    | some msg =>
      ⟨r.synced, r.syncedEvents, (e.id, msg) :: r.errors, r.createdItems,
        SyncAction.attempt e :: r.trace⟩

/-- The value `sync()` returns: `errors` is `none` for the early return
`return { synced: 0, total }` of src/index.js:358 (object without an errors
key) and `some list` for the final return of src/index.js:393. -/
structure SyncResult where
  synced : Nat
  errors : Option (List (Nat × String))
  total : Nat
deriving DecidableEq, Repr

/-- A completed run: its returned result, the events successfully created (fed
to the notifier), the items those creates added to the destination, and the
write-phase action trace. -/
structure RunOutcome where
  result : SyncResult
  syncedEvents : List SplashEvent
  createdItems : List WebflowItem
  trace : List SyncAction
deriving Repr

/-- The `sync()` orchestration of src/index.js:320-394 after its three reads:
`fs` is the fetched schema key set, `events` the Splash listing, `db` the
destination's current items (served to the dedup scan in pages), `createOk` the
per-create outcome. Filters to published events, diffs against the dedup index,
returns early when nothing is new, otherwise runs the write loop. -/
def sync (fs : Finset String) (events : List SplashEvent) (db : List WebflowItem)
    (createOk : SplashEvent → Option String)
    (pd : String → Option (String × String)) : RunOutcome :=
  let splashEvents := publishedOf events
  let news := newEventsOf events db
  if news.isEmpty then
    ⟨⟨0, none, splashEvents.length⟩, [], [], []⟩
  else
    let r := writeLoop fs pd createOk news
    ⟨⟨r.synced, some r.errors, splashEvents.length⟩, r.syncedEvents, r.createdItems, r.trace⟩

/-- The create calls occurring in a trace, in order. -/
def attemptedOf (trace : List SyncAction) : List SplashEvent :=
  trace.filterMap (fun a =>
    match a with
    | SyncAction.attempt e => some e
    | SyncAction.delay _ => none)

/-- Whether an action is a create call. -/
def isAttempt : SyncAction → Bool
  | SyncAction.attempt _ => true
  | SyncAction.delay _ => false

/-- True when no two create calls are adjacent in the trace, i.e. every pair of
consecutive write attempts has an intervening delay. -/
def pacedOk : List SyncAction → Bool
  | a :: b :: rest => !(isAttempt a && isAttempt b) && pacedOk (b :: rest)
  | _ => true

lemma mem_addItemId (s : String) (acc : Finset String) (it : WebflowItem) :
    s ∈ addItemId acc it ↔ s ∈ acc ∨ (s ≠ "" ∧ it.splashId = some s) := by
  unfold addItemId
  rcases hit : it.splashId with _ | t
  · simp
  · dsimp only
    by_cases ht : t = ""
    · subst ht
      simp only [if_pos rfl]
      constructor
      · exact Or.inl
      · rintro (h | ⟨hs, hid⟩)
        · exact h
        · cases hid; exact absurd rfl hs
    · rw [if_neg ht]
      simp only [Finset.mem_insert]
      constructor
      · rintro (rfl | h)
        · exact Or.inr ⟨ht, rfl⟩
        · exact Or.inl h
      · rintro (h | ⟨hs, hid⟩)
        · exact Or.inr h
        · cases hid; exact Or.inl rfl

lemma card_addItemId (acc : Finset String) (it : WebflowItem) :
    (addItemId acc it).card ≤ acc.card + 1 := by
  unfold addItemId
  rcases it.splashId with _ | t
  · dsimp only; omega
  · dsimp only
    by_cases ht : t = ""
    · rw [if_pos ht]; omega
    · rw [if_neg ht]; exact Finset.card_insert_le _ _

lemma mem_addPageIds (s : String) (l : List WebflowItem) : ∀ acc : Finset String,
    s ∈ addPageIds acc l ↔ s ∈ acc ∨ (s ≠ "" ∧ ∃ it ∈ l, it.splashId = some s) := by
  induction l with
  | nil => intro acc; simp [addPageIds]
  | cons it rest ih =>
    intro acc
    rw [addPageIds, List.foldl_cons,
      show List.foldl addItemId (addItemId acc it) rest = addPageIds (addItemId acc it) rest from rfl,
      ih, mem_addItemId]
    constructor
    · rintro ((h | ⟨hs, hid⟩) | ⟨hs, it', hmem, hid⟩)
      · exact Or.inl h
      · exact Or.inr ⟨hs, it, List.mem_cons_self it rest, hid⟩
      · exact Or.inr ⟨hs, it', List.mem_cons_of_mem it hmem, hid⟩
    · rintro (h | ⟨hs, it', hmem, hid⟩)
      · exact Or.inl (Or.inl h)
      · rcases List.mem_cons.mp hmem with rfl | hmem'
        · exact Or.inl (Or.inr ⟨hs, hid⟩)
        · exact Or.inr ⟨hs, it', hmem', hid⟩

lemma card_addPageIds (l : List WebflowItem) : ∀ acc : Finset String,
    (addPageIds acc l).card ≤ acc.card + l.length := by
  induction l with
  | nil => intro acc; simp [addPageIds]
  | cons it rest ih =>
    intro acc
    rw [addPageIds, List.foldl_cons,
      show List.foldl addItemId (addItemId acc it) rest = addPageIds (addItemId acc it) rest from rfl]
    calc (addPageIds (addItemId acc it) rest).card
        ≤ (addItemId acc it).card + rest.length := ih _
      _ ≤ (acc.card + 1) + rest.length := Nat.add_le_add_right (card_addItemId acc it) _
      _ = acc.card + (it :: rest).length := by simp [Nat.add_comm, Nat.add_assoc, Nat.add_left_comm]

lemma addPageIds_append (acc : Finset String) (a b : List WebflowItem) :
    addPageIds acc (a ++ b) = addPageIds (addPageIds acc a) b := by
  simp [addPageIds, List.foldl_append]

lemma fetchPagesLoop_paged (db : List WebflowItem) : ∀ (fuel offset reqs : Nat) (acc : Finset String),
    db.length - offset < fuel →
    fetchPagesLoop (pagedServe db) fuel offset acc reqs =
      some (addPageIds acc (db.drop offset), reqs + (db.length - offset) / 100 + 1) := by
  intro fuel
  induction fuel with
  | zero => intro offset reqs acc h; omega
  | succ f ih =>
    intro offset reqs acc h
    rw [fetchPagesLoop]
    simp only [pagedServe, pageLimit]
    by_cases hshort : ((db.drop offset).take 100).length < 100
    · rw [if_pos hshort]
      have hrem : db.length - offset < 100 := by
        simp only [List.length_take, List.length_drop] at hshort
        omega
      have hlen : (db.drop offset).length ≤ 100 := by
        simp only [List.length_drop]
        omega
      rw [List.take_of_length_le hlen]
      have hdiv : (db.length - offset) / 100 = 0 := by omega
      rw [hdiv]
    · rw [if_neg hshort]
      have hlong : 100 ≤ db.length - offset := by
        simp only [List.length_take, List.length_drop] at hshort
        omega
      rw [ih (offset + 100) (reqs + 1) _ (by omega)]
      have hdrop : db.drop (offset + 100) = (db.drop offset).drop 100 := by
        rw [List.drop_drop]
      rw [hdrop, ← addPageIds_append, List.take_append_drop]
      congr 2
      omega

lemma fetchExistingSplashIds_eq (db : List WebflowItem) :
    fetchExistingSplashIds db = some (addPageIds ∅ db, db.length / 100 + 1) := by
  rw [fetchExistingSplashIds, fetchPagesLoop_paged db (db.length + 1) 0 0 ∅ (by omega)]
  simp

lemma existingIdsOf_eq (db : List WebflowItem) :
    existingIdsOf db = addPageIds ∅ db := by
  rw [existingIdsOf, fetchExistingSplashIds_eq]
  rfl

lemma mem_existingIdsOf (s : String) (db : List WebflowItem) :
    s ∈ existingIdsOf db ↔ s ≠ "" ∧ ∃ it ∈ db, it.splashId = some s := by
  rw [existingIdsOf_eq, mem_addPageIds]
  simp

lemma find?_append_eq {α : Type} (p : α → Bool) (a b : List α) :
    (a ++ b).find? p = ((a.find? p).orElse (fun _ => b.find? p)) := by
  induction a with
  | nil => simp
  | cons x xs ih =>
    by_cases h : p x <;> simp [List.find?_cons, h, ih]

lemma lookupJs_map_name (e : SplashEvent) (fs : Finset String)
    (pd : String → Option (String × String)) :
    lookupJs (mapSplashToWebflow e fs pd) "name"
      = some (FieldValue.str (jsOr e.title "Untitled Event")) := by
  simp [lookupJs, mapSplashToWebflow, List.find?]

lemma lookupJs_map_slug (e : SplashEvent) (fs : Finset String)
    (pd : String → Option (String × String)) :
    lookupJs (mapSplashToWebflow e fs pd) "slug"
      = some (FieldValue.str (slugify (jsOr e.title "Untitled Event"))) := by
  simp [lookupJs, mapSplashToWebflow, List.find?]

lemma splashIdField_map (e : SplashEvent) (fs : Finset String)
    (pd : String → Option (String × String)) (hs : "splash-id" ∈ fs) :
    splashIdField (mapSplashToWebflow e fs pd) = some (toString e.id) := by
  rw [splashIdField, lookupJs, mapSplashToWebflow]
  rw [show condField fs "splash-id" true (FieldValue.str (toString e.id))
      = [("splash-id", FieldValue.str (toString e.id))] from by
    rw [condField, if_pos ⟨hs, rfl⟩]]
  simp [List.find?]

lemma writeLoop_counts (fs : Finset String) (pd : String → Option (String × String))
    (ok : SplashEvent → Option String) : ∀ l : List SplashEvent,
    (writeLoop fs pd ok l).synced + (writeLoop fs pd ok l).errors.length = l.length := by
  intro l
  induction l with
  | nil => simp [writeLoop]
  | cons e rest ih =>
    rcases h : ok e with _ | msg <;> simp [writeLoop, h] <;> omega

lemma writeLoop_attempted (fs : Finset String) (pd : String → Option (String × String))
    (ok : SplashEvent → Option String) : ∀ l : List SplashEvent,
    attemptedOf (writeLoop fs pd ok l).trace = l := by
  intro l
  induction l with
  | nil => simp [writeLoop, attemptedOf]
  | cons e rest ih =>
    rcases h : ok e with _ | msg <;> simp [writeLoop, h, attemptedOf] at ih ⊢ <;> exact ih

lemma writeLoop_trace (fs : Finset String) (pd : String → Option (String × String))
    (ok : SplashEvent → Option String) : ∀ l : List SplashEvent,
    (writeLoop fs pd ok l).trace =
      (l.map (fun e => SyncAction.attempt e ::
        (match ok e with
         | none => [SyncAction.delay 1100]
         | some _ => []))).flatten := by
  intro l
  induction l with
  | nil => simp [writeLoop]
  | cons e rest ih =>
    rcases h : ok e with _ | msg <;> simp [writeLoop, h, ih]

lemma writeLoop_created_mem (fs : Finset String) (pd : String → Option (String × String))
    (ok : SplashEvent → Option String) (e : SplashEvent) : ∀ l : List SplashEvent,
    e ∈ l → ok e = none →
    (⟨splashIdField (mapSplashToWebflow e fs pd)⟩ : WebflowItem)
      ∈ (writeLoop fs pd ok l).createdItems := by
  intro l
  induction l with
  | nil => intro h; cases h
  | cons x rest ih =>
    intro hmem hok
    rcases List.mem_cons.mp hmem with rfl | hmem'
    · rw [writeLoop]
      simp only [hok]
      exact List.mem_cons_self _ _
    · rcases h : ok x with _ | msg
      · rw [writeLoop]; simp only [h]
        exact List.mem_cons_of_mem _ (ih hmem' hok)
      · rw [writeLoop]; simp only [h]
        exact ih hmem' hok

lemma writeLoop_allOk (fs : Finset String) (pd : String → Option (String × String))
    (ok : SplashEvent → Option String) : ∀ l : List SplashEvent,
    (∀ e ∈ l, ok e = none) →
    (writeLoop fs pd ok l).synced = l.length ∧ (writeLoop fs pd ok l).errors = [] := by
  intro l
  induction l with
  | nil => intro _; simp [writeLoop]
  | cons e rest ih =>
    intro h
    have he : ok e = none := h e (List.mem_cons_self e rest)
    have hrest := ih (fun x hx => h x (List.mem_cons_of_mem e hx))
    simp [writeLoop, he, hrest.1, hrest.2]

lemma toDigitsCore_length_mono (b : Nat) : ∀ (fuel n : Nat) (ds : List Char),
    ds.length ≤ (Nat.toDigitsCore b fuel n ds).length := by
  intro fuel
  induction fuel with
  | zero => intro n ds; simp [Nat.toDigitsCore]
  | succ f ih =>
    intro n ds
    rw [Nat.toDigitsCore]
    split
    · simp
    · calc ds.length ≤ (Nat.digitChar (n % b) :: ds).length := by simp
        _ ≤ _ := ih _ _

lemma toString_nat_ne_empty (n : Nat) : toString n ≠ "" := by
  have h1 : 1 ≤ (Nat.toDigits 10 n).length := by
    rw [Nat.toDigits, Nat.toDigitsCore]
    split
    · simp
    · calc 1 ≤ (Nat.digitChar (n % 10) :: ([] : List Char)).length := by simp
        _ ≤ _ := toDigitsCore_length_mono 10 _ _ _
  intro h
  have h2 : (Nat.toDigits 10 n).asString = "" := h
  have h3 : Nat.toDigits 10 n = [] := by
    have := congrArg String.data h2
    simpa [List.asString] using this
  rw [h3] at h1
  simp at h1

lemma collapseAux_all_nonslug (l : List Char) (h : ∀ c ∈ l, isSlugChar c = false) :
    collapseAux l true = [] := by
  induction l with
  | nil => rfl
  | cons c rest ih =>
    rw [collapseAux]
    rw [if_neg (by simp [h c (List.mem_cons_self c rest)]), if_pos rfl]
    exact ih (fun x hx => h x (List.mem_cons_of_mem c hx))

lemma collapse_all_nonslug (l : List Char) (hne : l ≠ [])
    (h : ∀ c ∈ l, isSlugChar c = false) : collapse l = ['-'] := by
  rcases l with _ | ⟨c, rest⟩
  · exact absurd rfl hne
  · rw [collapse, collapseAux]
    rw [if_neg (by simp [h c (List.mem_cons_self c rest)]), if_neg (by simp)]
    rw [collapseAux_all_nonslug rest (fun x hx => h x (List.mem_cons_of_mem c hx))]

lemma slugify_all_nonslug (t : String) (ht : t ≠ "")
    (hc : ∀ c ∈ t.data, isSlugChar c.toLower = false) : slugify t = "" := by
  have hdata : t.data ≠ [] := by
    intro h
    apply ht
    cases t
    simp at h
    simp [h]
  have hmap : t.data.map Char.toLower ≠ [] := by
    simp [List.map_eq_nil_iff]
    exact hdata
  have hall : ∀ c ∈ t.data.map Char.toLower, isSlugChar c = false := by
    intro c hcmem
    rcases List.mem_map.mp hcmem with ⟨d, hd, rfl⟩
    exact hc d hd
  rw [slugify, collapse_all_nonslug _ hmap hall]
  rfl

lemma mem_condField {fs : Finset String} {key : String} {c : Bool} {w : FieldValue}
    {p : String × FieldValue} (h : p ∈ condField fs key c w) : p.1 ∈ fs := by
  rw [condField] at h
  split at h
  · rcases List.mem_singleton.mp h with rfl
    next hcond => exact hcond.1
  · cases h

lemma mem_aliasField {fs : Finset String} {al : List String} {v : String}
    {p : String × FieldValue} (h : p ∈ aliasField fs al v) : p.1 ∈ fs := by
  rw [aliasField] at h
  split at h
  · cases h
  · split at h
    · next k hk =>
      rcases List.mem_singleton.mp h with rfl
      have := List.find?_some hk
      simpa using this
    · cases h

lemma sync_eq_empty (fs : Finset String) (events : List SplashEvent)
    (db : List WebflowItem) (ok : SplashEvent → Option String)
    (pd : String → Option (String × String)) (h : newEventsOf events db = []) :
    sync fs events db ok pd = ⟨⟨0, none, (publishedOf events).length⟩, [], [], []⟩ := by
  rw [sync]
  simp [h]

lemma sync_eq_write (fs : Finset String) (events : List SplashEvent)
    (db : List WebflowItem) (ok : SplashEvent → Option String)
    (pd : String → Option (String × String)) (h : ¬newEventsOf events db = []) :
    sync fs events db ok pd =
      ⟨⟨(writeLoop fs pd ok (newEventsOf events db)).synced,
        some (writeLoop fs pd ok (newEventsOf events db)).errors,
        (publishedOf events).length⟩,
       (writeLoop fs pd ok (newEventsOf events db)).syncedEvents,
       (writeLoop fs pd ok (newEventsOf events db)).createdItems,
       (writeLoop fs pd ok (newEventsOf events db)).trace⟩ := by
  rw [sync]
  simp [List.isEmpty_iff, h]

lemma slugify_length_le (t : String) : (slugify t).length ≤ 100 := by
  rw [slugify]
  show (List.take 100 _).length ≤ 100
  exact List.length_take_le _ _

/-- A date parser that always fails to parse; used for concrete instances. -/
def pdNone : String → Option (String × String) := fun _ => none

/-- A create oracle on which every create call succeeds. -/
def okAll : SplashEvent → Option String := fun _ => none

/-- A create oracle failing exactly on the event with the given id. -/
def okFailOn (k : Nat) : SplashEvent → Option String :=
  fun e => if e.id = k then some "boom" else none

/-- A published Splash event carrying only an id. -/
def pubEvent (n : Nat) : SplashEvent := { id := n, published := some true }

/-- A destination of 250 items none of which stores a splash id. -/
def db250 : List WebflowItem := List.replicate 250 { splashId := none }

/-- A published event whose title has no alphanumeric character. -/
def bangEvent : SplashEvent := { id := 7, title := some "!!!", published := some true }

/-- C1 (amended): if the destination schema contains 'splash-id' and every
create call of the first run succeeds, a second run over the unchanged source
and the grown destination finds no new events, performs zero write attempts and
reports a created count of 0. -/
theorem C1_sync_idempotent (fs : Finset String) (events : List SplashEvent)
    (db : List WebflowItem) (ok1 ok2 : SplashEvent → Option String)
    (pd1 pd2 : String → Option (String × String))
    (hs : "splash-id" ∈ fs)
    (hok : ∀ e ∈ newEventsOf events db, ok1 e = none) :
    newEventsOf events (db ++ (sync fs events db ok1 pd1).createdItems) = [] ∧
    (sync fs events (db ++ (sync fs events db ok1 pd1).createdItems) ok2 pd2).result.synced = 0 ∧
    attemptedOf (sync fs events (db ++ (sync fs events db ok1 pd1).createdItems) ok2 pd2).trace = [] := by
  have hnews2 : newEventsOf events (db ++ (sync fs events db ok1 pd1).createdItems) = [] := by
    rw [newEventsOf, List.filter_eq_nil_iff]
    intro e he
    simp only [Bool.not_eq_true', decide_eq_false_iff_not, Decidable.not_not]
    by_cases hmem : toString e.id ∈ existingIdsOf db
    · rcases (mem_existingIdsOf _ db).mp hmem with ⟨hne, it, hit, hid⟩
      exact (mem_existingIdsOf _ _).mpr ⟨hne, it, List.mem_append_left _ hit, hid⟩
    · have hnew : e ∈ newEventsOf events db := by
        rw [newEventsOf, List.mem_filter]
        exact ⟨he, by simp [hmem]⟩
      have hok1 : ok1 e = none := hok e hnew
      have hne : newEventsOf events db ≠ [] := by
        intro h0
        rw [h0] at hnew
        cases hnew
      have hitem : (⟨splashIdField (mapSplashToWebflow e fs pd1)⟩ : WebflowItem)
          ∈ (sync fs events db ok1 pd1).createdItems := by
        rw [sync_eq_write fs events db ok1 pd1 hne]
        exact writeLoop_created_mem fs pd1 ok1 e (newEventsOf events db) hnew hok1
      rw [splashIdField_map e fs pd1 hs] at hitem
      exact (mem_existingIdsOf _ _).mpr
        ⟨toString_nat_ne_empty e.id, _, List.mem_append_right _ hitem, rfl⟩
  refine ⟨hnews2, ?_, ?_⟩
  · rw [sync_eq_empty _ _ _ _ _ hnews2]
  · rw [sync_eq_empty _ _ _ _ _ hnews2]
    rfl

/-- C1 witness: a concrete schema containing 'splash-id', one published event,
an empty destination and an all-success first run. -/
theorem C1_sync_idempotent_witness :
    ("splash-id" ∈ ({"splash-id"} : Finset String)) ∧
    (∀ e ∈ newEventsOf [pubEvent 1] [], okAll e = none) ∧
    (newEventsOf [pubEvent 1] ([] ++ (sync {"splash-id"} [pubEvent 1] [] okAll pdNone).createdItems) = [] ∧
     (sync {"splash-id"} [pubEvent 1] ([] ++ (sync {"splash-id"} [pubEvent 1] [] okAll pdNone).createdItems) okAll pdNone).result.synced = 0 ∧
     attemptedOf (sync {"splash-id"} [pubEvent 1] ([] ++ (sync {"splash-id"} [pubEvent 1] [] okAll pdNone).createdItems) okAll pdNone).trace = []) :=
  ⟨by decide, by decide,
    C1_sync_idempotent {"splash-id"} [pubEvent 1] [] okAll okAll pdNone pdNone
      (by decide) (by decide)⟩

/-- C1 counterexample: with a schema lacking the 'splash-id' key the created
record stores no source identifier, so the second run re-creates the same event
(created count 1, not 0), refuting the claim quantified over every destination
state. -/
theorem C1_counterexample :
    (sync ∅ [pubEvent 1]
      ([] ++ (sync ∅ [pubEvent 1] [] okAll pdNone).createdItems)
      okAll pdNone).result.synced ≠ 0 := by
  decide

/-- C2 (amended): every key of the projected fieldData other than the
unconditionally emitted 'name' and 'slug' is a member of the schema key set. -/
theorem C2_schema_containment (e : SplashEvent) (fs : Finset String)
    (pd : String → Option (String × String)) (k : String) (v : FieldValue)
    (h : (k, v) ∈ mapSplashToWebflow e fs pd) :
    k ∈ fs ∨ k = "name" ∨ k = "slug" := by
  simp only [mapSplashToWebflow, List.append_assoc, List.mem_append, List.mem_cons,
    List.mem_singleton, Prod.mk.injEq, List.not_mem_nil] at h
  rcases h with (⟨rfl, _⟩ | ⟨rfl, _⟩ | hfalse) | h
  · exact Or.inr (Or.inl rfl)
  · exact Or.inr (Or.inr rfl)
  · exact hfalse.elim
  rcases h with h | h | h | h | h | h | h | h
  · exact Or.inl (mem_condField h)
  · exact Or.inl (mem_condField h)
  · exact Or.inl (mem_condField h)
  · exact Or.inl (mem_condField h)
  · exact Or.inl (mem_condField h)
  · exact Or.inl (mem_aliasField h)
  · exact Or.inl (mem_aliasField h)
  · exact Or.inl (mem_aliasField h)

/-- C2 witness: a schema-guarded key of a concrete projection is in the schema. -/
theorem C2_schema_containment_witness :
    (("splash-id", FieldValue.str "1") ∈ mapSplashToWebflow (pubEvent 1) {"splash-id"} pdNone) ∧
    ("splash-id" ∈ ({"splash-id"} : Finset String) ∨ "splash-id" = "name" ∨ "splash-id" = "slug") :=
  ⟨by decide,
    C2_schema_containment (pubEvent 1) {"splash-id"} pdNone "splash-id" (FieldValue.str "1")
      (by decide)⟩

/-- C2 counterexample: against the empty schema key set, the projection still
emits the 'name' key, which is not a member of the set — refuting containment
for the unconditional keys. -/
theorem C2_counterexample :
    ("name", FieldValue.str "Untitled Event") ∈ mapSplashToWebflow (pubEvent 1) ∅ pdNone ∧
    ("name" : String) ∉ (∅ : Finset String) := by
  constructor
  · decide
  · decide

/-- C3 (confirmed): when exactly the record ek fails among pre ++ ek :: post
and all others succeed, the loop creates all but one record, records exactly one
(identifier, message) failure pair, and still attempts every record in
source-listing order. -/
theorem C3_partial_failure (fs : Finset String) (pd : String → Option (String × String))
    (ok : SplashEvent → Option String) (pre post : List SplashEvent) (ek : SplashEvent)
    (msg : String) (hfail : ok ek = some msg)
    (hok : ∀ e ∈ pre ++ post, ok e = none) :
    (writeLoop fs pd ok (pre ++ ek :: post)).synced + 1 = (pre ++ ek :: post).length ∧
    (writeLoop fs pd ok (pre ++ ek :: post)).errors = [(ek.id, msg)] ∧
    attemptedOf (writeLoop fs pd ok (pre ++ ek :: post)).trace = pre ++ ek :: post := by
  have key : ∀ pre' : List SplashEvent, (∀ e ∈ pre' ++ post, ok e = none) →
      (writeLoop fs pd ok (pre' ++ ek :: post)).synced = pre'.length + post.length ∧
      (writeLoop fs pd ok (pre' ++ ek :: post)).errors = [(ek.id, msg)] := by
    intro pre'
    induction pre' with
    | nil =>
      intro h
      rw [List.nil_append, writeLoop]
      simp only [hfail]
      have hall := writeLoop_allOk fs pd ok post (by simpa using h)
      simp [hall.1, hall.2]
    | cons x rest ih =>
      intro h
      have hx : ok x = none := h x (by simp)
      have hrest := ih (fun e he => h e (by simp at he ⊢; tauto))
      rw [List.cons_append, writeLoop]
      simp only [hx]
      refine ⟨?_, hrest.2⟩
      simp [hrest.1]
      omega
  have hk := key pre hok
  refine ⟨?_, hk.2, writeLoop_attempted fs pd ok _⟩
  rw [hk.1]
  simp
  omega

/-- C3 witness: three records with the middle one failing. -/
theorem C3_partial_failure_witness :
    okFailOn 2 (pubEvent 2) = some "boom" ∧
    (∀ e ∈ [pubEvent 1] ++ [pubEvent 3], okFailOn 2 e = none) ∧
    ((writeLoop ∅ pdNone (okFailOn 2) ([pubEvent 1] ++ pubEvent 2 :: [pubEvent 3])).synced + 1
        = ([pubEvent 1] ++ pubEvent 2 :: [pubEvent 3]).length ∧
      (writeLoop ∅ pdNone (okFailOn 2) ([pubEvent 1] ++ pubEvent 2 :: [pubEvent 3])).errors
        = [((pubEvent 2).id, "boom")] ∧
      attemptedOf (writeLoop ∅ pdNone (okFailOn 2) ([pubEvent 1] ++ pubEvent 2 :: [pubEvent 3])).trace
        = [pubEvent 1] ++ pubEvent 2 :: [pubEvent 3]) :=
  ⟨by decide, by decide,
    C3_partial_failure ∅ pdNone (okFailOn 2) [pubEvent 1] [pubEvent 3] (pubEvent 2) "boom"
      (by decide) (by decide)⟩

/-- C4 (confirmed): the write attempts of a run are exactly the published
events whose stringified identifier is absent from the dedup index, in
source-listing order; in particular an event whose published flag is not
exactly true is never attempted. -/
theorem C4_diff_rule (fs : Finset String) (events : List SplashEvent)
    (db : List WebflowItem) (ok : SplashEvent → Option String)
    (pd : String → Option (String × String)) :
    attemptedOf (sync fs events db ok pd).trace = newEventsOf events db ∧
    ∀ e : SplashEvent,
      e ∈ attemptedOf (sync fs events db ok pd).trace ↔
        (e ∈ events ∧ e.published = some true ∧ toString e.id ∉ existingIdsOf db) := by
  have h1 : attemptedOf (sync fs events db ok pd).trace = newEventsOf events db := by
    by_cases h : newEventsOf events db = []
    · rw [sync_eq_empty fs events db ok pd h, h]
      rfl
    · rw [sync_eq_write fs events db ok pd h]
      exact writeLoop_attempted fs pd ok _
  refine ⟨h1, fun e => ?_⟩
  rw [h1, newEventsOf, List.mem_filter, publishedOf, List.mem_filter]
  simp [and_assoc]

/-- C5 (confirmed): a destination of exactly 250 records is scanned in exactly
3 page requests whose pages hold 100, 100 and 50 items, the resulting id set
has size at most 250, and it contains exactly the non-empty stored splash-id
values (items with an absent or empty value are silently skipped). -/
theorem C5_dedup_scan (db : List WebflowItem) (h : db.length = 250) :
    (∃ S : Finset String,
      fetchExistingSplashIds db = some (S, 3) ∧
      S.card ≤ 250 ∧
      ∀ s : String, s ∈ S ↔ (s ≠ "" ∧ ∃ it ∈ db, it.splashId = some s)) ∧
    (pagedServe db 0).length = 100 ∧
    (pagedServe db 100).length = 100 ∧
    (pagedServe db 200).length = 50 := by
  refine ⟨⟨addPageIds ∅ db, ?_, ?_, ?_⟩, ?_, ?_, ?_⟩
  · rw [fetchExistingSplashIds_eq, h]
  · have := card_addPageIds db ∅
    simpa [h] using this
  · intro s
    rw [mem_addPageIds]
    simp
  · simp [pagedServe, pageLimit, List.length_take, List.length_drop, h]
  · simp [pagedServe, pageLimit, List.length_take, List.length_drop, h]
  · simp [pagedServe, pageLimit, List.length_take, List.length_drop, h]

/-- C5 witness: the concrete 250-item destination. -/
theorem C5_dedup_scan_witness :
    db250.length = 250 ∧
    ((∃ S : Finset String,
      fetchExistingSplashIds db250 = some (S, 3) ∧
      S.card ≤ 250 ∧
      ∀ s : String, s ∈ S ↔ (s ≠ "" ∧ ∃ it ∈ db250, it.splashId = some s)) ∧
    (pagedServe db250 0).length = 100 ∧
    (pagedServe db250 100).length = 100 ∧
    (pagedServe db250 200).length = 50) :=
  ⟨by rw [db250, List.length_replicate], C5_dedup_scan db250 (by rw [db250, List.length_replicate])⟩

/-- C6 (amended): every completed run reports the published total; the created
count plus the recorded failure count equals the number of new records; but the
failure list is present only when the new-record set is non-empty — the
empty-set early return carries no failure list at all. -/
theorem C6_result_shape (fs : Finset String) (events : List SplashEvent)
    (db : List WebflowItem) (ok : SplashEvent → Option String)
    (pd : String → Option (String × String)) :
    (sync fs events db ok pd).result.total = (publishedOf events).length ∧
    (sync fs events db ok pd).result.synced
        + ((sync fs events db ok pd).result.errors.getD []).length
      = (newEventsOf events db).length ∧
    (sync fs events db ok pd).result.errors =
      (if newEventsOf events db = [] then none
       else some (writeLoop fs pd ok (newEventsOf events db)).errors) := by
  by_cases h : newEventsOf events db = []
  · rw [sync_eq_empty fs events db ok pd h]
    simp [h]
  · rw [sync_eq_write fs events db ok pd h]
    refine ⟨rfl, ?_, by simp [h]⟩
    simpa using writeLoop_counts fs pd ok (newEventsOf events db)

/-- C6 counterexample: a run whose new-record set is empty returns a result
without any failure list (the errors key is absent), refuting the claim that
every completed run contains it. -/
theorem C6_counterexample :
    (sync ∅ [] [] okAll pdNone).result.errors = none ∧
    (sync ∅ [] [] okAll pdNone).result = { synced := 0, errors := none, total := 0 } := by
  constructor
  · decide
  · decide

/-- C7 (amended): the write-loop trace consists, per record in order, of its
create attempt followed by the fixed 1100 ms delay exactly when the create
succeeded; a failed create is followed by no delay. -/
theorem C7_pacing (fs : Finset String) (pd : String → Option (String × String))
    (ok : SplashEvent → Option String) (news : List SplashEvent) :
    (writeLoop fs pd ok news).trace =
      (news.map (fun e => SyncAction.attempt e ::
        (match ok e with
         | none => [SyncAction.delay 1100]
         | some _ => []))).flatten := by
  induction news with
  | nil => simp [writeLoop]
  | cons e rest ih =>
    rcases h : ok e with _ | msg <;> simp [writeLoop, h, ih]

/-- C7 counterexample: with two new records of which the first create fails,
the trace contains two adjacent attempts with no intervening delay, refuting
the claim that a delay follows every write attempt. -/
theorem C7_counterexample :
    (sync ∅ [pubEvent 1, pubEvent 2] [] (okFailOn 1) pdNone).trace
      = [SyncAction.attempt (pubEvent 1), SyncAction.attempt (pubEvent 2),
         SyncAction.delay 1100] ∧
    pacedOk (sync ∅ [pubEvent 1, pubEvent 2] [] (okFailOn 1) pdNone).trace = false := by
  constructor
  · decide
  · decide

/-- C8 (confirmed): the projected slug is the slug algorithm applied to the
effective title (the title, or the fixed default when absent/empty); the
algorithm sends the example title to its expected slug, the default title's
slug is the non-empty string untitled-event, and every slug is at most 100
characters long. -/
theorem C8_slug_generation (e : SplashEvent) (fs : Finset String)
    (pd : String → Option (String × String)) :
    lookupJs (mapSplashToWebflow e fs pd) "slug"
      = some (FieldValue.str (slugify (jsOr e.title "Untitled Event"))) ∧
    lookupJs (mapSplashToWebflow e fs pd) "name"
      = some (FieldValue.str (jsOr e.title "Untitled Event")) ∧
    slugify "Fall Launch Event!!" = "fall-launch-event" ∧
    jsOr (some "") "Untitled Event" = "Untitled Event" ∧
    jsOr none "Untitled Event" = "Untitled Event" ∧
    slugify "Untitled Event" = "untitled-event" ∧
    "untitled-event" ≠ "" ∧
    (slugify (jsOr e.title "Untitled Event")).length ≤ 100 :=
  ⟨lookupJs_map_slug e fs pd, lookupJs_map_name e fs pd, by decide, by decide, rfl,
    by decide, by decide, slugify_length_le _⟩

/-- C9 (confirmed, implicit): a present non-empty title all of whose characters
lower-case outside [a-z0-9] is kept as the name (the default is not applied)
while the emitted slug value is the empty string. -/
theorem C9_empty_slug (e : SplashEvent) (fs : Finset String)
    (pd : String → Option (String × String)) (t : String)
    (h1 : e.title = some t) (h2 : t ≠ "")
    (h3 : ∀ c ∈ t.data, isSlugChar c.toLower = false) :
    lookupJs (mapSplashToWebflow e fs pd) "name" = some (FieldValue.str t) ∧
    lookupJs (mapSplashToWebflow e fs pd) "slug" = some (FieldValue.str "") := by
  have htitle : jsOr e.title "Untitled Event" = t := by
    rw [h1, jsOr]
    simp [h2]
  constructor
  · rw [lookupJs_map_name, htitle]
  · rw [lookupJs_map_slug, htitle, slugify_all_nonslug t h2 h3]

/-- C9 witness: the concrete title of three exclamation marks. -/
theorem C9_empty_slug_witness :
    bangEvent.title = some "!!!" ∧
    ("!!!" : String) ≠ "" ∧
    (∀ c ∈ ("!!!" : String).data, isSlugChar c.toLower = false) ∧
    (lookupJs (mapSplashToWebflow bangEvent ∅ pdNone) "name" = some (FieldValue.str "!!!") ∧
     lookupJs (mapSplashToWebflow bangEvent ∅ pdNone) "slug" = some (FieldValue.str "")) :=
  ⟨rfl, by decide, by decide,
    C9_empty_slug bangEvent ∅ pdNone "!!!" rfl (by decide) (by decide)⟩

/-- C10 (confirmed, implicit): against any page server that eventually returns
a short page at some offset 100*k, the pagination loop terminates: fuel k+1
already makes it return a result, since each iteration either breaks on a short
page or advances the offset by exactly 100. -/
theorem C10_pagination_terminates (serve : Nat → List WebflowItem) (k : Nat)
    (h : (serve (100 * k)).length < 100) :
    ∃ res : Finset String × Nat, fetchPagesLoop serve (k + 1) 0 ∅ 0 = some res := by
  have key : ∀ (j offset : Nat) (acc : Finset String) (reqs : Nat),
      (serve (offset + 100 * j)).length < 100 →
      ∃ res, fetchPagesLoop serve (j + 1) offset acc reqs = some res := by
    intro j
    induction j with
    | zero =>
      intro offset acc reqs h0
      rw [fetchPagesLoop]
      simp only [pageLimit]
      rw [if_pos (by simpa using h0)]
      exact ⟨_, rfl⟩
    | succ j' ih =>
      intro offset acc reqs h0
      rw [fetchPagesLoop]
      simp only [pageLimit]
      by_cases hshort : (serve offset).length < 100
      · rw [if_pos hshort]
        exact ⟨_, rfl⟩
      · rw [if_neg hshort]
        refine ih (offset + 100) _ _ ?_
        have : offset + 100 + 100 * j' = offset + 100 * (j' + 1) := by ring
        rw [this]
        exact h0
  simpa using key k 0 ∅ 0 (by simpa using h)

/-- C10 witness: the empty server is short already at offset 0. -/
theorem C10_pagination_terminates_witness :
    ((fun _ => ([] : List WebflowItem)) (100 * 0)).length < 100 ∧
    ∃ res : Finset String × Nat,
      fetchPagesLoop (fun _ => ([] : List WebflowItem)) (0 + 1) 0 ∅ 0 = some res :=
  ⟨by decide, C10_pagination_terminates (fun _ => ([] : List WebflowItem)) 0 (by decide)⟩
